import Mathlib

/-!
Verification of the CDI serial-protocol layer: the telemetry packet decoder
and polling step of `cdi_monitor.py`, and the ignition-map write encoding of
`cdi_ignition_map.py`, shallowly embedded over `List Nat` byte sequences.
-/

/-- Decoded view of a valid 22-byte telemetry frame, mirroring the dictionary
returned by `decode_cdi_packet` in `cdi_monitor.py` (keys `rpm`, `battery`,
`status_byte`, `timing byte`; `battery` is derived from the raw decivolt byte
below). -/
structure CDIPacket where
  rpm : Nat
  battery_decivolts : Nat
  status_byte : Nat
  timing_byte : Nat
deriving DecidableEq, Repr

/-- Battery voltage as reported in the `battery` entry of the source's result
dictionary: `battery_decivolts / 10.0`. -/
def CDIPacket.battery (p : CDIPacket) : ℚ :=
  (p.battery_decivolts : ℚ) / 10

/-- Embedding of `decode_cdi_packet` from `cdi_monitor.py`:
validity guard `len(data) != 22 or data[0] != 0x03 or data[21] != 0xA9`
returns `None`; otherwise `rpm = (data[1] << 8) | data[2]`,
`battery_decivolts = data[7]`, `status = data[8]`, `timing_byte = data[9]`.
Indexing is rendered with `getD`, which coincides with Python indexing on all
indices actually reached (the length test guards every access). -/
def decode_cdi_packet (data : List Nat) : Option CDIPacket :=
  if data.length ≠ 22 ∨ data.getD 0 0 ≠ 0x03 ∨ data.getD 21 0 ≠ 0xA9 then
    none
  else
    some { rpm := data.getD 1 0 <<< 8 ||| data.getD 2 0
         , battery_decivolts := data.getD 7 0
         , status_byte := data.getD 8 0
         , timing_byte := data.getD 9 0 }

/-- Python list indexing `data[i]` made explicit: out-of-range access is an
`IndexError`, modelled as `Except.error ()`. -/
def py_get (data : List Nat) (i : Nat) : Except Unit Nat :=
  match data[i]? with
  | some b => Except.ok b
  | none => Except.error ()

/-- Re-rendering of `decode_cdi_packet` in which every `data[i]` is the
fallible `py_get` and Python's short-circuit `or` is kept: `data[0]` is only
evaluated once `len(data) == 22` is known, and `data[21]` only after
`data[0] == 0x03`. -/
def decode_cdi_packet_checked (data : List Nat) : Except Unit (Option CDIPacket) :=
  if data.length ≠ 22 then Except.ok none
  else
    match py_get data 0 with
    | Except.error e => Except.error e
    | Except.ok b0 =>
      if b0 ≠ 0x03 then Except.ok none
      else
        match py_get data 21 with
        | Except.error e => Except.error e
        | Except.ok b21 =>
          if b21 ≠ 0xA9 then Except.ok none
          else
            match py_get data 1, py_get data 2, py_get data 7,
                py_get data 8, py_get data 9 with
            | Except.ok b1, Except.ok b2, Except.ok b7,
                Except.ok b8, Except.ok b9 =>
              Except.ok (some { rpm := b1 <<< 8 ||| b2
                              , battery_decivolts := b7
                              , status_byte := b8
                              , timing_byte := b9 })
            | _, _, _, _, _ => Except.error ()

/-- Recombining the low `n` bits of a number with its remaining bits shifted
back into place gives the number back. -/
lemma mod_lor_div_shiftLeft (v n : Nat) :
    v % 2 ^ n ||| (v / 2 ^ n) <<< n = v := by
  apply Nat.eq_of_testBit_eq
  intro i
  rw [Nat.testBit_lor, Nat.testBit_mod_two_pow, Nat.testBit_shiftLeft,
    ← Nat.shiftRight_eq_div_pow, Nat.testBit_shiftRight]
  rcases Nat.lt_or_ge i n with h | h
  · simp [h, Nat.not_le.mpr h]
  · simp [Nat.not_lt.mpr h, h, Nat.add_sub_cancel' h]

/-- Shift-or of a high byte with a low byte below 256 is plain base-256
recombination. -/
lemma shiftLeft_lor_eq_mul_add (hi lo : Nat) (hlo : lo < 256) :
    hi <<< 8 ||| lo = 256 * hi + lo := by
  have h := mod_lor_div_shiftLeft (256 * hi + lo) 8
  have h256 : (2 : Nat) ^ 8 = 256 := by norm_num
  rw [h256, Nat.mul_add_mod, Nat.mod_eq_of_lt hlo] at h
  have hdiv : (256 * hi + lo) / 256 = hi := by
    rw [Nat.mul_add_div (by norm_num : 0 < 256), Nat.div_eq_of_lt hlo,
      Nat.add_zero]
  rw [hdiv, Nat.lor_comm] at h
  exact h

lemma getD_eq_getElem_of_lt (l : List Nat) (i : Nat) (h : i < l.length) :
    l.getD i 0 = l[i] := by
  rw [List.getD_eq_getElem?_getD, List.getElem?_eq_getElem h, Option.getD_some]

/-- C1: the decoder returns `Invalid` (`none`) exactly on frames failing
validation; a frame decodes to a packet iff it has length 22, byte 0 equal to
0x03 and byte 21 equal to 0xA9. -/
theorem decode_valid_iff (data : List Nat) :
    (∃ p, decode_cdi_packet data = some p) ↔
      data.length = 22 ∧ data[0]? = some 0x03 ∧ data[21]? = some 0xA9 := by
  unfold decode_cdi_packet
  constructor
  · rintro ⟨p, hp⟩
    split at hp
    · exact absurd hp (by simp)
    · rename_i hguard
      push_neg at hguard
      obtain ⟨h22, h0, h21⟩ := hguard
      refine ⟨h22, ?_, ?_⟩
      · rw [List.getElem?_eq_getElem (by omega),
          ← getD_eq_getElem_of_lt data 0 (by omega), h0]
      · rw [List.getElem?_eq_getElem (by omega),
          ← getD_eq_getElem_of_lt data 21 (by omega), h21]
  · rintro ⟨h22, h0, h21⟩
    have e0 : data.getD 0 0 = 0x03 := by
      rw [List.getD_eq_getElem?_getD, h0, Option.getD_some]
    have e21 : data.getD 21 0 = 0xA9 := by
      rw [List.getD_eq_getElem?_getD, h21, Option.getD_some]
    rw [if_neg (by push_neg; exact ⟨h22, e0, e21⟩)]
    exact ⟨_, rfl⟩

/-- Witness for `decode_valid_iff` at a concrete 22-byte passing frame. -/
theorem decode_valid_iff_witness :
    ∃ p, decode_cdi_packet
      [0x03,0,0,0,0,0,0,0,0,0,0,0,0,0,0,0,0,0,0,0,0,0xA9] = some p :=
  (decode_valid_iff _).mpr ⟨by decide, by decide, by decide⟩

/-- C2: on a frame passing validation, the decoder extracts exactly
`rpm = (data[1] << 8) | data[2]` (which is the big-endian value
`256 * data[1] + data[2]` whenever the low byte is a byte), the raw decivolt
byte `data[7]` (voltage being that value over 10), the status byte `data[8]`
and the raw timing byte `data[9]`, with no other conversion. -/
theorem decode_fields (data : List Nat)
    (h22 : data.length = 22) (h0 : data.getD 0 0 = 0x03)
    (h21 : data.getD 21 0 = 0xA9) :
    decode_cdi_packet data =
      some { rpm := data.getD 1 0 <<< 8 ||| data.getD 2 0
           , battery_decivolts := data.getD 7 0
           , status_byte := data.getD 8 0
           , timing_byte := data.getD 9 0 } ∧
    (data.getD 2 0 < 256 →
      data.getD 1 0 <<< 8 ||| data.getD 2 0
        = 256 * data.getD 1 0 + data.getD 2 0) ∧
    (∀ p, decode_cdi_packet data = some p →
      p.battery = (p.battery_decivolts : ℚ) / 10) := by
  refine ⟨?_, fun hlt => shiftLeft_lor_eq_mul_add _ _ hlt, fun p _ => rfl⟩
  unfold decode_cdi_packet
  rw [if_neg (by push_neg; exact ⟨h22, h0, h21⟩)]

/-- Witness for `decode_fields` at a concrete passing frame. -/
theorem decode_fields_witness :
    decode_cdi_packet
      [0x03,1,2,0,0,0,0,115,8,9,0,0,0,0,0,0,0,0,0,0,0,0xA9] =
      some { rpm := 1 <<< 8 ||| 2, battery_decivolts := 115
           , status_byte := 8, timing_byte := 9 } ∧
    1 <<< 8 ||| 2 = 256 * 1 + 2 := by
  have h := decode_fields
    [0x03,1,2,0,0,0,0,115,8,9,0,0,0,0,0,0,0,0,0,0,0,0xA9]
    (by decide) (by decide) (by decide)
  exact ⟨h.1, h.2.1 (by decide)⟩

/-- First literal frame of the source's test vectors:
hex `030000000000007210040008000a020103020201a6a9`. -/
def test_frame1 : List Nat :=
  [0x03,0x00,0x00,0x00,0x00,0x00,0x00,0x72,0x10,0x04,0x00,
   0x08,0x00,0x0a,0x02,0x01,0x03,0x02,0x02,0x01,0xa6,0xa9]

/-- Fourth literal frame of the source's test vectors:
hex `030d40000000007f0660000800220201030202016aa9`. -/
def test_frame4 : List Nat :=
  [0x03,0x0d,0x40,0x00,0x00,0x00,0x00,0x7f,0x06,0x60,0x00,
   0x08,0x00,0x22,0x02,0x01,0x03,0x02,0x02,0x01,0x6a,0xa9]

/-- C6: the first literal frame decodes to a valid packet with `rpm = 0`,
and the second decodes successfully with `rpm` equal to the big-endian
combination of bytes 1 and 2, `(0x0d << 8) | 0x40 = 3392`. -/
theorem decode_literal_frames :
    decode_cdi_packet test_frame1 =
      some { rpm := 0, battery_decivolts := 0x72
           , status_byte := 0x10, timing_byte := 0x04 } ∧
    (decode_cdi_packet test_frame4).map CDIPacket.rpm
      = some (0x0d <<< 8 ||| 0x40) ∧
    0x0d <<< 8 ||| 0x40 = 3392 := by
  refine ⟨?_, ?_, by decide⟩ <;> decide

/-- C9: the decoder is deterministic and stateless; identical inputs give
identical results, with no dependence on prior calls (it is a pure function
of its argument). -/
theorem decode_deterministic (d₁ d₂ : List Nat) (h : d₁ = d₂) :
    decode_cdi_packet d₁ = decode_cdi_packet d₂ := by
  rw [h]

/-- Witness for `decode_deterministic` on a concrete repeated input. -/
theorem decode_deterministic_witness :
    decode_cdi_packet test_frame1 = decode_cdi_packet test_frame1 :=
  decode_deterministic test_frame1 test_frame1 rfl

/-- C10: the decoder is total and crash-free on arbitrary input: the
rendering with explicit fallible indexing never raises an out-of-bounds
error (the length test short-circuits before any byte is indexed) and agrees
with the total decoder on every byte sequence, the empty one included. -/
theorem decode_checked_total (data : List Nat) :
    decode_cdi_packet_checked data = Except.ok (decode_cdi_packet data) := by
  by_cases h22 : data.length = 22
  · have hget : ∀ i, i < 22 → py_get data i = Except.ok (data.getD i 0) := by
      intro i hi
      unfold py_get
      rw [List.getElem?_eq_getElem (by omega), getD_eq_getElem_of_lt data i (by omega)]
    unfold decode_cdi_packet_checked decode_cdi_packet
    simp only [hget 0 (by omega), hget 21 (by omega), hget 1 (by omega),
      hget 2 (by omega), hget 7 (by omega), hget 8 (by omega),
      hget 9 (by omega)]
    split_ifs <;> first | rfl | tauto
  · unfold decode_cdi_packet_checked decode_cdi_packet
    rw [if_pos h22, if_pos (by tauto)]

/-- Little-endian byte pair of a 16-bit value, as produced by
`struct.pack` with format `<H` in `write_ignition_map` of
`cdi_ignition_map.py`; on the format's domain (values below 65536, outside
which `struct.pack` raises) the pair is `[v % 256, v / 256]`. -/
def packLE16 (v : Nat) : List Nat :=
  [v % 256, v / 256 % 256]

/-- Hardcoded value list inside `write_ignition_map` of
`cdi_ignition_map.py` (`test_values`). -/
def test_values : List Nat :=
  [4730, 6375, 7573, 8914, 10268, 11336, 11926, 12891,
   13975, 15070, 16000, 0, 0, 0, 0, 0]

/-- Concatenated little-endian encoding of a value table: each value in
order as a two-byte pair, nothing else. This is the data portion
`write_ignition_map` builds and sends byte by byte. -/
def encode_map (values : List Nat) : List Nat :=
  (values.map packLE16).flatten

set_option linter.unusedVariables false in
/-- Byte stream put on the wire by `write_ignition_map` of
`cdi_ignition_map.py`: the command byte 0x0D, then the little-endian pairs
of `test_values` — the `map_data` parameter is dead in the source, whose
loop iterates over the hardcoded `test_values`, never over `map_data`. -/
def write_ignition_map_tx (map_data : List Nat) : List Nat :=
  0x0D :: encode_map test_values

/-- Pairwise little-endian decoding as performed in `test_protocol` of
`cdi_ignition_map.py`: `val = sequence[i] | (sequence[i+1] << 8)` over
consecutive pairs. -/
def decode_pairs : List Nat → List Nat
  | lo :: hi :: rest => (lo ||| hi <<< 8) :: decode_pairs rest
  | _ => []

lemma packLE16_recombine (v : Nat) (hv : v < 65536) :
    v % 256 ||| (v / 256 % 256) <<< 8 = v := by
  have hdiv : v / 256 < 256 := Nat.div_lt_of_lt_mul (by omega)
  rw [Nat.mod_eq_of_lt hdiv]
  have h := mod_lor_div_shiftLeft v 8
  norm_num at h
  exact h

/-- C3 counterexample evidence: the map-write operation does not write the
given map's values after the command byte. Whatever map is passed, the
stream is the command byte followed by the encoding of the hardcoded
`test_values`; at the concrete input `[0]` this differs from the encoding
of the passed map. -/
theorem write_ignition_map_ignores_map_data :
    (∀ map_data : List Nat,
      write_ignition_map_tx map_data = 0x0D :: encode_map test_values) ∧
    write_ignition_map_tx [0] ≠ 0x0D :: encode_map [0] :=
  ⟨fun _ => rfl, by decide⟩

/-- C4 evidence: the claimed 7-byte stream `0D 7A 12 E7 18 95 1D` is exactly
the command byte followed by the little-endian encoding of the map
`[4730, 6375, 7573]`, and it is a strict prefix of what the code actually
emits for that map — the code ignores its argument and sends 33 bytes (the
16 hardcoded values). -/
theorem write_ignition_map_literal_three :
    0x0D :: encode_map [4730, 6375, 7573]
      = [0x0D, 0x7A, 0x12, 0xE7, 0x18, 0x95, 0x1D] ∧
    (write_ignition_map_tx [4730, 6375, 7573]).take 7
      = [0x0D, 0x7A, 0x12, 0xE7, 0x18, 0x95, 0x1D] ∧
    (write_ignition_map_tx [4730, 6375, 7573]).length = 33 := by
  refine ⟨?_, ?_, ?_⟩ <;> decide

/-- C5: round trip of the map-writer encoding — for any table of 16-bit
values, the concatenated little-endian pairs make exactly twice as many
bytes as there are values, and decoding consecutive pairs as
`lo | (hi << 8)` restores the table. -/
theorem encode_map_roundtrip (values : List Nat)
    (h : ∀ v ∈ values, v < 65536) :
    (encode_map values).length = 2 * values.length ∧
    decode_pairs (encode_map values) = values := by
  induction values with
  | nil => exact ⟨rfl, rfl⟩
  | cons v rest ih =>
    have hv : v < 65536 := h v (by simp)
    obtain ⟨ihl, ihd⟩ := ih (fun x hx => h x (by simp [hx]))
    have hcons : encode_map (v :: rest)
        = v % 256 :: v / 256 % 256 :: encode_map rest := rfl
    constructor
    · rw [hcons]
      simp only [List.length_cons, ihl]
      omega
    · rw [hcons]
      show (v % 256 ||| (v / 256 % 256) <<< 8) :: decode_pairs (encode_map rest)
        = v :: rest
      rw [packLE16_recombine v hv, ihd]

/-- Witness for `encode_map_roundtrip` on the three-value literal map. -/
theorem encode_map_roundtrip_witness :
    (encode_map [4730, 6375, 7573]).length
      = 2 * ([4730, 6375, 7573] : List Nat).length ∧
    decode_pairs (encode_map [4730, 6375, 7573]) = [4730, 6375, 7573] :=
  encode_map_roundtrip [4730, 6375, 7573] (by decide)

/-- Outcome of one cycle of the monitor's read loop. -/
inductive PollResult where
  | noData : PollResult
  | packet : CDIPacket → PollResult
  | invalid : PollResult
deriving DecidableEq, Repr

/-- One cycle of the read loop in `connect_and_read_data` of
`cdi_monitor.py`, after the request bytes are sent and the 0.1 s wait has
elapsed: `buffer` is what is then waiting on the port
(`in_waiting = buffer.length`). If at least 22 bytes are waiting, exactly 22
are read and decoded; a decode failure becomes the placeholder row printed
by `pretty_print(None)`, never an exception. With fewer than 22 bytes,
nothing is read this cycle. -/
def poll_once (buffer : List Nat) : PollResult :=
  if buffer.length ≥ 22 then
    match decode_cdi_packet (buffer.take 22) with
    | some p => PollResult.packet p
    | none => PollResult.invalid
  else PollResult.noData

/-- C7: a poll cycle yields `noData` whenever fewer than 22 bytes are
available; otherwise it consumes exactly the first 22 bytes (the result
depends on nothing beyond them) and hands them to the decoder, a decode
failure degrading to the `invalid` placeholder outcome rather than an
error. -/
theorem poll_once_spec (buffer : List Nat) :
    (buffer.length < 22 → poll_once buffer = PollResult.noData) ∧
    (22 ≤ buffer.length →
      (buffer.take 22).length = 22 ∧
      poll_once buffer = poll_once (buffer.take 22) ∧
      (∀ p, decode_cdi_packet (buffer.take 22) = some p →
        poll_once buffer = PollResult.packet p) ∧
      (decode_cdi_packet (buffer.take 22) = none →
        poll_once buffer = PollResult.invalid)) := by
  constructor
  · intro h
    unfold poll_once
    rw [if_neg (by omega)]
  · intro h
    have hlen : (buffer.take 22).length = 22 := by
      rw [List.length_take]
      omega
    refine ⟨hlen, ?_, ?_, ?_⟩
    · unfold poll_once
      rw [if_pos (by omega), if_pos (by omega), List.take_take]
      norm_num
    · intro p hp
      unfold poll_once
      rw [if_pos (by omega), hp]
    · intro hp
      unfold poll_once
      rw [if_pos (by omega), hp]

/-- Witness for `poll_once_spec`: with 25 bytes waiting whose first 22 form
the first literal test frame, the cycle reads exactly those 22 bytes and
produces its packet. -/
theorem poll_once_spec_witness :
    (test_frame1 ++ [1, 2, 3]).take 22 = test_frame1 ∧
    poll_once (test_frame1 ++ [1, 2, 3]) =
      PollResult.packet { rpm := 0, battery_decivolts := 0x72
                        , status_byte := 0x10, timing_byte := 0x04 } :=
  ⟨by decide,
    ((poll_once_spec (test_frame1 ++ [1, 2, 3])).2 (by decide)).2.2.1 _
      (by decide)⟩

/-- Serial line as seen by the handshake: bytes waiting to be read from the
device and the log of bytes written to it. -/
structure SerialState where
  rx : List Nat
  tx : List Nat
deriving DecidableEq, Repr

/-- Writing of a single byte, the granularity the source uses
(`port.write(bytes([byte]))`). -/
def write_byte (s : SerialState) (b : Nat) : SerialState :=
  { s with tx := s.tx ++ [b] }

/-- Initialization and request sequence `[0x01, 0xAB, 0xAC, 0xA1]` of
`cdi_monitor.py`. -/
def init_bytes : List Nat := [0x01, 0xAB, 0xAC, 0xA1]

/-- One round of the double-init loop in `connect_to_cdi`: write the four
init bytes one at a time, sleep 0.1 s (during which `arrival` bytes may
come in), then, if `in_waiting > 0`, read everything waiting. The drained
response is only counted and printed, never validated. Returns the new
state and the drained response (empty when none was seen). -/
def init_round (s : SerialState) (arrival : List Nat) :
    SerialState × List Nat :=
  let s1 := init_bytes.foldl write_byte s
  let s2 : SerialState := { s1 with rx := s1.rx ++ arrival }
  if s2.rx.length > 0 then ({ s2 with rx := [] }, s2.rx)
  else (s2, [])

/-- Embedding of `connect_to_cdi` of `cdi_monitor.py`: the init round runs
exactly twice (`for round in [1, 2]`) and the port is returned
unconditionally, whatever the two rounds observed. -/
def connect_to_cdi (s : SerialState) (arrival1 arrival2 : List Nat) :
    SerialState × List (List Nat) :=
  let r1 := init_round s arrival1
  let r2 := init_round r1.1 arrival2
  (r2.1, [r1.2, r2.2])

lemma foldl_write_byte (bs : List Nat) (s : SerialState) :
    bs.foldl write_byte s = { s with tx := s.tx ++ bs } := by
  induction bs generalizing s with
  | nil => simp
  | cons b rest ih =>
    rw [List.foldl_cons, ih]
    simp [write_byte]

lemma init_round_spec (s : SerialState) (a : List Nat) (h : s.rx = []) :
    init_round s a = ({ rx := [], tx := s.tx ++ init_bytes }, a) := by
  unfold init_round
  rw [foldl_write_byte]
  by_cases ha : a = []
  · subst ha
    simp [h]
  · simp [h, List.length_pos.mpr ha]

/-- C8: the handshake writes the 4-byte init sequence exactly twice and
nothing else, drains whatever arrived after each attempt without looking at
its content, and returns the connection unconditionally — for every pair of
device responses, including silence on either or both attempts. -/
theorem connect_to_cdi_spec (s : SerialState) (a1 a2 : List Nat)
    (h : s.rx = []) :
    (connect_to_cdi s a1 a2).1.tx = s.tx ++ (init_bytes ++ init_bytes) ∧
    (connect_to_cdi s a1 a2).2 = [a1, a2] ∧
    (connect_to_cdi s a1 a2).1.rx = [] := by
  simp only [connect_to_cdi]
  rw [init_round_spec s a1 h]
  simp only []
  rw [init_round_spec _ a2 rfl]
  exact ⟨by simp, rfl, rfl⟩

/-- Witness for `connect_to_cdi_spec`: a fresh port where the device
answers the first attempt with one byte and stays silent on the second. -/
theorem connect_to_cdi_spec_witness :
    (connect_to_cdi ⟨[], []⟩ [0x55] []).1.tx
      = [] ++ (init_bytes ++ init_bytes) ∧
    (connect_to_cdi ⟨[], []⟩ [0x55] []).2 = [[0x55], []] ∧
    (connect_to_cdi ⟨[], []⟩ [0x55] []).1.rx = [] :=
  connect_to_cdi_spec ⟨[], []⟩ [0x55] [] rfl
